import Mathlib

/-!
Shallow embedding of the 2d.go sandbox game (src/main.go) and proofs about it.

Modelling conventions, fixed once for the whole development:
* Go `float64` world coordinates, sizes and velocities are embedded as `ℚ`
  (exact arithmetic).  Every constant the program manipulates (50, 4, 0.5,
  12, 10, 250 …) is exactly representable in binary floating point and the
  claims under study are about the algebraic structure of the code, so the
  rational embedding is faithful on the states the claims quantify over.
* Go `int` is embedded as `ℤ` (no overflow is remotely approached).
* The one square-root comparison (`distance(...) <= MaxPlaceDistance` in
  `addBlock`) is embedded as the equivalent squared comparison
  `dx*dx + dy*dy ≤ MaxPlaceDistance^2`; `math.Sqrt` is monotone and exact at
  the boundary 250² = 62500, so the two tests decide identically.
* Go maps keyed by the `chunkKey` string are embedded as association lists
  with `List.lookup`.
-/

namespace TwoD

/-- ItemType from src/main.go (ItemTypeGrass … ItemTypeSnow). -/
inductive ItemType where
  | grass | dirt | stone | sand | wood | water | lava | snow
deriving DecidableEq

/-- TerrainType from src/main.go (TerrainTypePlains … TerrainTypeCanyon). -/
inductive TerrainType where
  | plains | hills | mountains | desert | forest | snowyPlains
  | swamp | jungle | taiga | savanna | canyon
deriving DecidableEq

/-- Block from src/main.go: `X, Y, W, H float64; Type ItemType`. -/
structure Block where
  x : ℚ
  y : ℚ
  w : ℚ
  h : ℚ
  type : ItemType
deriving DecidableEq

/-- Chunk from src/main.go: `X, Y int; Blocks []Block`. -/
structure Chunk where
  cx : ℤ
  cy : ℤ
  blocks : List Block
deriving DecidableEq

/-- The constant `PlayerSize = 50`. -/
def PlayerSize : ℚ := 50

/-- The constant `BlockSize = 50`. -/
def BlockSize : ℚ := 50

/-- The constant `PlayerSpeed = 4.0`. -/
def PlayerSpeed : ℚ := 4

/-- The constant `Gravity = 0.5`. -/
def Gravity : ℚ := 1/2

/-- The constant `JumpPower = 12.0`. -/
def JumpPower : ℚ := 12

/-- The constant `PlayerMaxFall = 10.0`. -/
def PlayerMaxFall : ℚ := 10

/-- The constant `ChunkSize = 10` (blocks per chunk edge). -/
def ChunkSize : ℤ := 10

/-- The constant `ChunkWorldSize = BlockSize * ChunkSize = 500`. -/
def ChunkWorldSize : ℚ := 500

/-- The constant `MaxPlaceDistance = 5 * BlockSize = 250`. -/
def MaxPlaceDistance : ℚ := 250

/-- The constant `GameModeCreative = 0` (iota). -/
def GameModeCreative : ℤ := 0

/-- The constant `GameModeSurvival = 1` (iota). -/
def GameModeSurvival : ℤ := 1

/-- The Game state fields of src/main.go that the core logic reads or
writes (rendering-only fields such as selection rectangles are omitted;
they are never read by the functions embedded here). -/
structure Game where
  playerX : ℚ
  playerY : ℚ
  playerVelocityY : ℚ
  playerOnGround : Bool
  cameraX : ℚ
  cameraY : ℚ
  blocks : List Block
  chunks : List (String × Chunk)
  worldMinX : ℚ
  worldMaxX : ℚ
  gameMode : ℤ
  currentItemType : ItemType
deriving DecidableEq

/-- isBlockAt from src/main.go lines 204-212: linear scan for a block whose
top-left corner equals (x, y) exactly. -/
def isBlockAt (blocks : List Block) (x y : ℚ) : Bool :=
  blocks.any fun b => decide (b.x = x ∧ b.y = y)

/-- isBlockAdjacent from src/main.go lines 262-289: true when one of the four
axis neighbours holds a block, or — the deliberate ground-level special
case — when y = 0. -/
def isBlockAdjacent (blocks : List Block) (x y : ℚ) : Bool :=
  isBlockAt blocks x (y - BlockSize) ||
  isBlockAt blocks x (y + BlockSize) ||
  isBlockAt blocks (x - BlockSize) y ||
  isBlockAt blocks (x + BlockSize) y ||
  decide (y = 0)

/-- The squared distance `dx*dx + dy*dy` computed inside `distance`
(src/main.go lines 292-296); the square root is elided and every comparison
against it is squared (see the header note). -/
def distSq (x1 y1 x2 y2 : ℚ) : ℚ :=
  (x2 - x1) * (x2 - x1) + (y2 - y1) * (y2 - y1)

/-- addBlock from src/main.go lines 299-328.  Creative mode appends
unconditionally on an empty cell; Survival mode additionally requires the
squared-distance bound and adjacency.  Any other mode value falls through
the switch and does nothing. -/
def addBlock (g : Game) (x y : ℚ) : Game :=
  if isBlockAt g.blocks x y then g
  else if g.gameMode = GameModeCreative then
    { g with blocks := g.blocks ++ [⟨x, y, BlockSize, BlockSize, g.currentItemType⟩] }
  else if g.gameMode = GameModeSurvival then
    if distSq (g.playerX + PlayerSize / 2) (g.playerY + PlayerSize / 2)
        (x + BlockSize / 2) (y + BlockSize / 2) ≤
        MaxPlaceDistance ^ 2 ∧ isBlockAdjacent g.blocks x y then
      { g with blocks := g.blocks ++ [⟨x, y, BlockSize, BlockSize, g.currentItemType⟩] }
    else g
  else g

/-- removeBlock from src/main.go lines 331-342: delete the first block whose
corner matches (x, y) exactly. -/
def removeBlock (blocks : List Block) (x y : ℚ) : List Block :=
  match blocks with
  | [] => []
  | b :: rest =>
      if b.x = x ∧ b.y = y then rest
      else b :: removeBlock rest x y

/-- chunkKey from src/main.go lines 344-347: the string "x,y" produced by
`fmt.Sprintf("%d,%d", x, y)`; Lean's decimal `toString` on ℤ agrees with
Go's `%d` formatting. -/
def chunkKey (x y : ℤ) : String :=
  toString x ++ "," ++ toString y

/-! ### Perlin noise (src/main.go lines 349-418)

The permutation table is abstracted as an arbitrary function `perm : ℕ → ℕ`:
`NewPerlinNoise(seed)` fills the table with a seed-determined permutation via
Go's `math/rand`, whose exact contents are irrelevant to the claims below —
they are proved for every table, hence for every construction seed.  Go's
two's-complement `& 255` / `& 511` on the (non-negative) table values and
floor indices is embedded as `% 256` / `% 512`. -/

/-- fade from src/main.go lines 393-395: the quintic smoothstep
`t*t*t*(t*(t*6-15)+10)`. -/
def fade (t : ℚ) : ℚ := t * t * t * (t * (t * 6 - 15) + 10)

/-- lerp from src/main.go lines 398-400. -/
def lerp (t a b : ℚ) : ℚ := a + t * (b - a)

/-- grad from src/main.go lines 403-418: select `(u,v)` as `(y,x)` when the
low 3 bits are below 8 and `(x,y)` otherwise, negate `u` on bit 2, negate
`v` on bit 1, return `u + v`.  Bit tests `h&4 != 0` and `h&2 != 0` are
embedded arithmetically as `h / 4 % 2 = 1` and `h / 2 % 2 = 1`. -/
def grad (hash : ℕ) (x y : ℚ) : ℚ :=
  let h := hash % 16
  let u := if h < 8 then y else x
  let v := if h < 8 then x else y
  let u2 := if h / 4 % 2 = 1 then -u else u
  let v2 := if h / 2 % 2 = 1 then -v else v
  u2 + v2

/-- Noise2D from src/main.go lines 368-390, parameterised by the permutation
table (see the section note). -/
def Noise2D (perm : ℕ → ℕ) (x y : ℚ) : ℚ :=
  let X : ℕ := (⌊x⌋ % 256).toNat
  let Y : ℕ := (⌊y⌋ % 256).toNat
  let xf := x - ⌊x⌋
  let yf := y - ⌊y⌋
  let u := fade xf
  let v := fade yf
  let A := perm X + Y
  let AA := perm (A % 512)
  let AB := perm ((A + 1) % 512)
  let B := perm ((X + 1) % 256) + Y
  let BA := perm (B % 512)
  let BB := perm ((B + 1) % 512)
  lerp v
    (lerp u (grad (perm (AA % 512)) xf yf)
            (grad (perm (BA % 512)) (xf - 1) yf))
    (lerp u (grad (perm (AB % 512)) xf (yf - 1))
            (grad (perm (BB % 512)) (xf - 1) (yf - 1)))

/-! ### Terrain generation (src/main.go lines 437-776)

The TerrainGenerator methods getHeight, getTerrainType, hasCave, hasTree,
getTreeHeight and the two decoration noises are pipelines of `OctaveNoise`
over float64, for which no exact kernel-computable embedding exists; they
are abstracted here as an arbitrary record of signal functions, and
generateChunk (src/main.go lines 605-767) is embedded literally over that
record.  Every theorem below quantifies over all signal records, so it holds
in particular for the concrete seed-12345 generator. -/

/-- Signals provided by a TerrainGenerator (src/main.go lines 437-602): the
surface height, biome, cave mask, tree mask, tree height, and the desert /
swamp decoration noises sampled inside generateChunk. -/
structure TerrainGen where
  getHeight : ℤ → ℤ
  getTerrainType : ℤ → TerrainType
  hasCave : ℤ → ℤ → Bool
  hasTree : ℤ → ℤ → TerrainType → Bool
  getTreeHeight : ℤ → TerrainType → ℤ
  cactusNoise : ℤ → ℚ
  waterNoise : ℤ → ℚ

/-- Go's `int(f)` conversion on a finite float truncates toward zero; on ℚ
this is `num / den` with Int's truncating division. -/
def goTruncInt (q : ℚ) : ℤ := q.num / (q.den : ℤ)

/-- The index list of Go's `for i := 1; i <= n; i++` loop. -/
def upFrom1 (n : ℤ) : List ℤ := (List.range n.toNat).map (fun i => (i : ℤ) + 1)

/-- The index list of Go's `for y := h; y >= h-d; y--` loop. -/
def downFrom (h : ℤ) (d : ℕ) : List ℤ := (List.range (d + 1)).map (fun i => h - (i : ℤ))

/-- getBlockType from src/main.go lines 493-562: the (biome, depth) table;
`x` is accepted and ignored exactly as in the source. -/
def getBlockType (x y height : ℤ) (terrainType : TerrainType) : ItemType :=
  let _ := x
  let depth := height - y
  match terrainType with
  | .desert => if depth < 3 then .sand else .stone
  | .savanna => if depth = 0 then .grass else if depth < 4 then .dirt else .stone
  | .plains => if depth = 0 then .grass else if depth < 3 then .dirt else .stone
  | .forest => if depth = 0 then .grass else if depth < 3 then .dirt else .stone
  | .hills => if depth = 0 then .grass else if depth < 5 then .dirt else .stone
  | .mountains => if depth = 0 then (if y > 5 then .snow else .stone)
      else if depth < 3 then .stone else .stone
  | .snowyPlains => if depth = 0 then .snow else if depth < 3 then .dirt else .stone
  | _ => if depth = 0 then .grass else if depth < 3 then .dirt else .stone

/-- The `maxDepth` switch of src/main.go lines 650-659. -/
def maxDepthFor (terrainType : TerrainType) : ℕ :=
  match terrainType with
  | .mountains => 8
  | .hills => 6
  | .desert => 4
  | _ => 5

/-- One iteration of the per-column loop of generateChunk (src/main.go lines
625-764): the spawn keep-clear `continue`, the terrain column with cave
holes, the tree trunk and biome-shaped canopy, and the desert / swamp
decorations, in source order. -/
def genColumn (tg : TerrainGen) (isNearPlayerSpawn : Bool) (worldX : ℤ) : List Block :=
  let height := tg.getHeight worldX
  let terrainType := tg.getTerrainType worldX
  let blockX : ℚ := (worldX : ℚ) * BlockSize
  if isNearPlayerSpawn = true ∧ |blockX| ≤ 3 * BlockSize ∧
      ((height : ℚ) * BlockSize < -40 + PlayerSize ∧
       (height : ℚ) * BlockSize + BlockSize > -40) then
    []
  else
    let column := (downFrom height (maxDepthFor terrainType)).filterMap (fun y =>
      if tg.hasCave worldX y then none
      else some ⟨blockX, (y : ℚ) * BlockSize, BlockSize, BlockSize,
        getBlockType worldX y height terrainType⟩)
    let trees :=
      if tg.hasTree worldX height terrainType = true ∧
          ¬(isNearPlayerSpawn = true ∧ |blockX| ≤ 3 * BlockSize) then
        let treeHeight := tg.getTreeHeight worldX terrainType
        let trunk := (upFrom1 treeHeight).map (fun i =>
          (⟨blockX, ((height + i : ℤ) : ℚ) * BlockSize, BlockSize, BlockSize,
            ItemType.wood⟩ : Block))
        let canopy :=
          if terrainType = TerrainType.forest ∨ terrainType = TerrainType.jungle then
            [(⟨blockX - BlockSize, ((height + treeHeight + 1 : ℤ) : ℚ) * BlockSize,
               BlockSize * 3, BlockSize, ItemType.grass⟩ : Block)] ++
            (if terrainType = TerrainType.jungle ∧ treeHeight > 6 then
              [(⟨blockX - BlockSize, ((height + treeHeight - 2 : ℤ) : ℚ) * BlockSize,
                 BlockSize * 3, BlockSize, ItemType.grass⟩ : Block)]
             else [])
          else if terrainType = TerrainType.taiga then
            (List.range 3).map (fun (i : ℕ) =>
              (⟨blockX - ((2 - (i : ℤ) : ℤ) : ℚ) * BlockSize / 2,
                ((height + treeHeight - 1 + (i : ℤ) : ℤ) : ℚ) * BlockSize,
                BlockSize * ((3 : ℚ) - ((i : ℤ) : ℚ)), BlockSize, ItemType.grass⟩ : Block))
          else []
        trunk ++ canopy
      else []
    let deco :=
      if terrainType = TerrainType.desert then
        if tg.cactusNoise worldX > 7/10 ∧ height ≥ 0 ∧
            ¬(isNearPlayerSpawn = true ∧ |blockX| ≤ 3 * BlockSize) then
          let cactusHeight := 1 + goTruncInt (tg.cactusNoise worldX * 3)
          (upFrom1 cactusHeight).map (fun i =>
            (⟨blockX, ((height + i : ℤ) : ℚ) * BlockSize, BlockSize, BlockSize,
              ItemType.sand⟩ : Block))
        else []
      else if terrainType = TerrainType.swamp then
        if tg.waterNoise worldX > 3/5 ∧ height ≥ -1 then
          [(⟨blockX, (height : ℚ) * BlockSize, BlockSize, BlockSize,
            ItemType.water⟩ : Block)]
        else []
      else []
    column ++ trees ++ deco

/-- generateChunk from src/main.go lines 605-767: the spawn-proximity flag,
the player-relative vertical band guard (empty chunk outside it), and the
ten-column loop. -/
def generateChunk (tg : TerrainGen) (playerX playerY : ℚ) (chunkX chunkY : ℤ) : Chunk :=
  let playerChunkX : ℤ := ⌊playerX / ChunkWorldSize⌋
  let isNearPlayerSpawn : Bool :=
    decide (playerChunkX - 1 ≤ chunkX ∧ chunkX ≤ playerChunkX + 1 ∧ chunkY = 0)
  let playerChunkY : ℤ := ⌊playerY / ChunkWorldSize⌋
  if chunkY > playerChunkY + 3 ∨ chunkY < playerChunkY - 3 then
    ⟨chunkX, chunkY, []⟩
  else
    ⟨chunkX, chunkY, (List.range ChunkSize.toNat).flatMap
      (fun i => genColumn tg isNearPlayerSpawn (chunkX * ChunkSize + (i : ℤ)))⟩

/-- loadChunk from src/main.go lines 770-776: generate and store on a cache
miss, merging the fresh blocks into the world list; do nothing on a hit. -/
def loadChunk (tg : TerrainGen) (g : Game) (chunkX chunkY : ℤ) : Game :=
  match g.chunks.lookup (chunkKey chunkX chunkY) with
  | some _ => g
  | none =>
      let c := generateChunk tg g.playerX g.playerY chunkX chunkY
      { g with chunks := (chunkKey chunkX chunkY, c) :: g.chunks,
               blocks := g.blocks ++ c.blocks }

/-- A concrete generator record that grows a height-4 tree on a flat forest:
used to exhibit a canopy block. -/
def tgForest : TerrainGen :=
  ⟨fun _ => 0, fun _ => .forest, fun _ _ => false,
   fun _ _ _ => true, fun _ _ => 4, fun _ => 0, fun _ => 0⟩

/-! ### Physics step (src/main.go lines 1002-1086)

`updatePhysics` embeds the movement portion of Game.Update — the claims'
"one simulation step": horizontal input move, horizontal resolution,
boundary clamp, jump, gravity with fall clamp, vertical move, vertical
resolution, camera lerp.  The remainder of Game.Update (mode/hotbar input,
chunk streaming, mouse placement/removal) is embedded separately above.
Two faithful simplifications: the playerRect used by each resolution loop is
built once before the loop (exactly as in the source — the loop mutates the
player fields but never rebuilds the rect), and the jump branch's
`playerOnGround = false` write is subsumed by the unconditional clear at the
start of vertical resolution (line 1051), the flag not being read
in between. -/

/-- The constant `ScreenWidth = 640`. -/
def ScreenWidth : ℚ := 640

/-- The constant `ScreenHeight = 480`. -/
def ScreenHeight : ℚ := 480

/-- The constant `CameraLerp = 0.1`. -/
def CameraLerp : ℚ := 1/10

/-- Keyboard input sampled by the physics portion of Update: left/A,
right/D, and space/W (jump). -/
structure Input where
  left : Bool
  right : Bool
  jump : Bool
deriving DecidableEq

/-- checkCollision from src/main.go lines 1081-1086: strict axis-aligned
rectangle overlap. -/
def checkCollision (a b : Block) : Bool :=
  decide (a.x < b.x + b.w ∧ a.x + a.w > b.x ∧ a.y < b.y + b.h ∧ a.y + a.h > b.y)

/-- The player rectangle `Block{x, y, PlayerSize, PlayerSize, 0}` built at
lines 1012 and 1052 (type 0 = grass, meaningless as the source notes). -/
def playerRect (x y : ℚ) : Block :=
  ⟨x, y, PlayerSize, PlayerSize, ItemType.grass⟩

/-- One iteration of the horizontal resolution loop (src/main.go lines
1013-1023): on overlap with the pre-built rect, clamp against the side the
player was on before moving; otherwise keep the accumulated x. -/
def hstep (oldX : ℚ) (rect : Block) (px : ℚ) (b : Block) : ℚ :=
  if checkCollision rect b = true then
    if oldX ≤ b.x - PlayerSize then b.x - PlayerSize
    else if oldX ≥ b.x + b.w then b.x + b.w
    else px
  else px

/-- The full horizontal resolution loop. -/
def horizResolve (oldX : ℚ) (rect : Block) (blocks : List Block) (px : ℚ) : ℚ :=
  blocks.foldl (hstep oldX rect) px

/-- The mutable player state of the vertical resolution loop: position,
vertical velocity, grounded flag. -/
structure VState where
  y : ℚ
  vy : ℚ
  og : Bool
deriving DecidableEq

/-- One iteration of the vertical resolution loop (src/main.go lines
1054-1067): land on top when falling from above (zeroing velocity and
setting the grounded flag), bump the head when rising from below (zeroing
velocity only). -/
def vstep (oldY : ℚ) (rect : Block) (s : VState) (b : Block) : VState :=
  if checkCollision rect b = true then
    if s.vy > 0 ∧ oldY ≤ b.y - PlayerSize then ⟨b.y - PlayerSize, 0, true⟩
    else if s.vy < 0 ∧ oldY ≥ b.y + b.h then ⟨b.y + b.h, 0, s.og⟩
    else s
  else s

/-- The full vertical resolution loop. -/
def vertResolve (oldY : ℚ) (rect : Block) (blocks : List Block) (s : VState) : VState :=
  blocks.foldl (vstep oldY rect) s

/-- The horizontal input move (src/main.go lines 1004-1009): left then right,
each by PlayerSpeed. -/
def moveX (g : Game) (inp : Input) : ℚ :=
  let movedX := if inp.left = true then g.playerX - PlayerSpeed else g.playerX
  if inp.right = true then movedX + PlayerSpeed else movedX

/-- The world-boundary clamp (src/main.go lines 1026-1032), active only once
both bounds have been initialised away from zero (they never are in this
program). -/
def boundX (g : Game) (q : ℚ) : ℚ :=
  if g.worldMinX ≠ 0 ∧ g.worldMaxX ≠ 0 then
    if q < g.worldMinX then g.worldMinX
    else if q > g.worldMaxX - PlayerSize then g.worldMaxX - PlayerSize
    else q
  else q

/-- Jump impulse, gravity, and the fall-speed clamp (src/main.go lines
1034-1044). -/
def stepVy (g : Game) (inp : Input) : ℚ :=
  let jumpVy := if inp.jump = true ∧ g.playerOnGround = true then -JumpPower
                else g.playerVelocityY
  let gravVy := jumpVy + Gravity
  if gravVy > PlayerMaxFall then PlayerMaxFall else gravVy

/-- The player x after input move, horizontal resolution and boundary clamp
(src/main.go lines 1002-1032). -/
def resolvedX (g : Game) (inp : Input) : ℚ :=
  boundX g (horizResolve g.playerX (playerRect (moveX g inp) g.playerY)
    g.blocks (moveX g inp))

/-- The vertical state after gravity integration and vertical resolution
(src/main.go lines 1040-1067); the grounded flag enters the loop cleared
(line 1051). -/
def stepVert (g : Game) (inp : Input) : VState :=
  vertResolve g.playerY (playerRect (resolvedX g inp) (g.playerY + stepVy g inp))
    g.blocks ⟨g.playerY + stepVy g inp, stepVy g inp, false⟩

/-- The physics portion of Game.Update (src/main.go lines 1002-1077),
assembled from the pieces above, camera lerp included (lines 1069-1075). -/
def updatePhysics (g : Game) (inp : Input) : Game :=
  { g with playerX := resolvedX g inp, playerY := (stepVert g inp).y,
           playerVelocityY := (stepVert g inp).vy,
           playerOnGround := (stepVert g inp).og,
           cameraX := g.cameraX + ((-(resolvedX g inp) + ScreenWidth / 2
             - PlayerSize / 2) - g.cameraX) * CameraLerp,
           cameraY := g.cameraY + ((-(stepVert g inp).y + ScreenHeight / 2
             - PlayerSize / 2) - g.cameraY) * CameraLerp }

/-- The strict-overlap test of checkCollision as a proposition, for a
player square at (px, py) against a block. -/
def Overlaps (px py : ℚ) (b : Block) : Prop :=
  px < b.x + b.w ∧ px + PlayerSize > b.x ∧ py < b.y + b.h ∧ py + PlayerSize > b.y

/-- The geometry every block created by this program satisfies (proved as
`block_dims` and evident for addBlock): x on the quarter-cell grid (taiga
canopies sit on half-cell offsets of the 50-grid), width a multiple of 25
and at least one cell, y on the cell grid, height exactly one cell. -/
def OnGrid (b : Block) : Prop :=
  (∃ i : ℤ, b.x = 25 * i) ∧ (∃ j : ℤ, b.w = 25 * j) ∧ 50 ≤ b.w ∧
  (∃ k : ℤ, b.y = 50 * k) ∧ b.h = 50

/-- A single ground cell used by the concrete physics scenarios. -/
def probeBlock : Block := ⟨0, 0, 50, 50, ItemType.grass⟩

/-- The no-keys input. -/
def noInput : Input := ⟨false, false, false⟩

/-- A state with the player embedded in `probeBlock` (reachable in the real
game: creative placement does not exclude the player's own cell). -/
def stuckGame : Game := ⟨0, 0, 0, false, 0, 0, [probeBlock], [], 0, 0, 0, ItemType.grass⟩

/-- A state with the player at rest exactly on top of `probeBlock`. -/
def restGame : Game := ⟨0, -50, 0, true, 0, 0, [probeBlock], [], 0, 0, 0, ItemType.grass⟩

/-- A state with the player ten units above `probeBlock`, falling freely. -/
def fallGame : Game := ⟨0, -60, 0, false, 0, 0, [probeBlock], [], 0, 0, 0, ItemType.grass⟩

/-- C4: placing a block (addBlock) at a cell already occupied by a block
leaves the whole game state — in particular the world block set — unchanged,
whatever the game mode (Creative, Survival, or any other value); the
"returns false" half of the claim is this absence of any state change, since
the Go addBlock has no return value. -/
theorem addBlock_occupied_noop (g : Game) (x y : ℚ)
    (h : isBlockAt g.blocks x y = true) :
    addBlock g x y = g := by
  unfold addBlock
  simp [h]

/-- Witness for `addBlock_occupied_noop` at a concrete occupied cell. -/
theorem addBlock_occupied_noop_witness :
    isBlockAt [(⟨0, 0, 50, 50, ItemType.grass⟩ : Block)] 0 0 = true ∧
    addBlock ⟨0, -60, 0, false, 0, 0, [⟨0, 0, 50, 50, ItemType.grass⟩], [],
      0, 0, 1, ItemType.grass⟩ 0 0 =
      ⟨0, -60, 0, false, 0, 0, [⟨0, 0, 50, 50, ItemType.grass⟩], [],
      0, 0, 1, ItemType.grass⟩ :=
  ⟨by decide,
   addBlock_occupied_noop
     ⟨0, -60, 0, false, 0, 0, [⟨0, 0, 50, 50, ItemType.grass⟩], [],
      0, 0, 1, ItemType.grass⟩ 0 0 (by decide)⟩

/-- C7: `isBlockAdjacent x 0` is true for every block set and every x, even
with all four neighbour cells empty; for y ≠ 0 it is true exactly when one
of the four axis-neighbour cells is occupied. -/
theorem isBlockAdjacent_ground_special (blocks : List Block) (x y : ℚ)
    (hy : y ≠ 0) :
    isBlockAdjacent blocks x 0 = true ∧
    (isBlockAdjacent blocks x y = true ↔
      (isBlockAt blocks x (y - BlockSize) = true ∨
       isBlockAt blocks x (y + BlockSize) = true ∨
       isBlockAt blocks (x - BlockSize) y = true ∨
       isBlockAt blocks (x + BlockSize) y = true)) := by
  constructor
  · unfold isBlockAdjacent
    simp
  · unfold isBlockAdjacent
    simp [hy, Bool.or_eq_true, or_assoc]

/-- Witness for `isBlockAdjacent_ground_special`: empty world, x = 7, y = 50;
the ground row is adjacent, the y = 50 cell is not. -/
theorem isBlockAdjacent_ground_special_witness :
    (50 : ℚ) ≠ 0 ∧ isBlockAdjacent [] 7 0 = true ∧
    (isBlockAdjacent [] 7 50 = true ↔
      (isBlockAt [] 7 (50 - BlockSize) = true ∨
       isBlockAt [] 7 (50 + BlockSize) = true ∨
       isBlockAt [] (7 - BlockSize) 50 = true ∨
       isBlockAt [] (7 + BlockSize) 50 = true)) :=
  ⟨by norm_num, (isBlockAdjacent_ground_special [] 7 50 (by norm_num)).1,
    (isBlockAdjacent_ground_special [] 7 50 (by norm_num)).2⟩

/-- C6: in Survival mode, a placement attempt whose cell centre is strictly
farther than MaxPlaceDistance from the player centre changes nothing — in
particular it changes nothing regardless of adjacency — and the block list
changes exactly when the cell is empty, the distance bound holds, and the
cell is adjacent to an existing block or at ground level (the y = 0 case
inside isBlockAdjacent); a successful placement appends the new 50×50 block
of the currently selected type.  Distances are compared squared, which is
equivalent (see the header note). -/
theorem addBlock_survival_rule (g : Game) (x y : ℚ)
    (hm : g.gameMode = GameModeSurvival) :
    (distSq (g.playerX + PlayerSize / 2) (g.playerY + PlayerSize / 2)
        (x + BlockSize / 2) (y + BlockSize / 2) > MaxPlaceDistance ^ 2 →
      addBlock g x y = g) ∧
    ((addBlock g x y).blocks ≠ g.blocks ↔
      (isBlockAt g.blocks x y = false ∧
       distSq (g.playerX + PlayerSize / 2) (g.playerY + PlayerSize / 2)
         (x + BlockSize / 2) (y + BlockSize / 2) ≤ MaxPlaceDistance ^ 2 ∧
       isBlockAdjacent g.blocks x y = true)) ∧
    ((isBlockAt g.blocks x y = false ∧
       distSq (g.playerX + PlayerSize / 2) (g.playerY + PlayerSize / 2)
         (x + BlockSize / 2) (y + BlockSize / 2) ≤ MaxPlaceDistance ^ 2 ∧
       isBlockAdjacent g.blocks x y = true) →
      (addBlock g x y).blocks =
        g.blocks ++ [⟨x, y, BlockSize, BlockSize, g.currentItemType⟩]) := by
  have hsc : ¬ (GameModeSurvival = GameModeCreative) := by
    unfold GameModeSurvival GameModeCreative; norm_num
  have hstep : addBlock g x y =
      if isBlockAt g.blocks x y = true then g
      else if distSq (g.playerX + PlayerSize / 2) (g.playerY + PlayerSize / 2)
          (x + BlockSize / 2) (y + BlockSize / 2) ≤ MaxPlaceDistance ^ 2 ∧
          isBlockAdjacent g.blocks x y = true then
        { g with blocks :=
            g.blocks ++ [⟨x, y, BlockSize, BlockSize, g.currentItemType⟩] }
      else g := by
    unfold addBlock
    rw [hm]
    simp [hsc]
  refine ⟨?_, ?_, ?_⟩
  · intro hfar
    rw [hstep]
    by_cases hocc : isBlockAt g.blocks x y = true
    · simp [hocc]
    · have hnot : ¬ (distSq (g.playerX + PlayerSize / 2) (g.playerY + PlayerSize / 2)
          (x + BlockSize / 2) (y + BlockSize / 2) ≤ MaxPlaceDistance ^ 2 ∧
          isBlockAdjacent g.blocks x y = true) := by
        rintro ⟨hle, _⟩; exact absurd hle (not_le.mpr hfar)
      simp [hocc, hnot]
  · rw [hstep]
    by_cases hocc : isBlockAt g.blocks x y = true
    · simp [hocc]
    · have hocc' : isBlockAt g.blocks x y = false := by simpa using hocc
      by_cases hcond : distSq (g.playerX + PlayerSize / 2) (g.playerY + PlayerSize / 2)
          (x + BlockSize / 2) (y + BlockSize / 2) ≤ MaxPlaceDistance ^ 2 ∧
          isBlockAdjacent g.blocks x y = true
      · simp [hocc, hocc', hcond]
      · simp only [hocc, if_false, hcond, ne_eq, not_true_eq_false]
        simp only [hocc', true_and]
        tauto
  · rintro ⟨hocc, hle, hadj⟩
    rw [hstep]
    simp [hocc, hle, hadj]

/-- Witness for `addBlock_survival_rule`: a survival game with a single
ground block at (0,0), the player right above it, placing at the empty
adjacent cell (50, 0). -/
theorem addBlock_survival_rule_witness :
    ((⟨0, -50, 0, true, 0, 0, [⟨0, 0, 50, 50, ItemType.grass⟩], [],
        0, 0, 1, ItemType.stone⟩ : Game)).gameMode = GameModeSurvival ∧
    (addBlock ⟨0, -50, 0, true, 0, 0, [⟨0, 0, 50, 50, ItemType.grass⟩], [],
        0, 0, 1, ItemType.stone⟩ 50 0).blocks =
      [⟨0, 0, 50, 50, ItemType.grass⟩] ++ [⟨50, 0, 50, 50, ItemType.stone⟩] := by
  refine ⟨by unfold GameModeSurvival; norm_num, ?_⟩
  have h := (addBlock_survival_rule
    ⟨0, -50, 0, true, 0, 0, [⟨0, 0, 50, 50, ItemType.grass⟩], [],
        0, 0, 1, ItemType.stone⟩ 50 0 (by unfold GameModeSurvival; norm_num)).2.2
  refine h ⟨by decide, ?_, ?_⟩
  · unfold distSq PlayerSize BlockSize MaxPlaceDistance
    norm_num
  · unfold isBlockAdjacent isBlockAt BlockSize
    norm_num

/-- The quintic fade is non-negative on [0, 1]. -/
theorem fade_nonneg {t : ℚ} (ht : 0 ≤ t) : 0 ≤ fade t := by
  have h1 : (0:ℚ) < 6 * t ^ 2 - 15 * t + 10 := by
    nlinarith [sq_nonneg (2 * t - 5/2)]
  have h2 : fade t = t ^ 3 * (6 * t ^ 2 - 15 * t + 10) := by
    unfold fade; ring
  rw [h2]
  exact mul_nonneg (pow_nonneg ht 3) h1.le

/-- The quintic fade is at most 1 on [0, 1]. -/
theorem fade_le_one {t : ℚ} (ht : 0 ≤ t) (ht1 : t ≤ 1) : fade t ≤ 1 := by
  have h2 : 1 - fade t = (1 - t) ^ 3 * (6 * t ^ 2 + 3 * t + 1) := by
    unfold fade; ring
  have h3 : (0:ℚ) ≤ (1 - t) ^ 3 * (6 * t ^ 2 + 3 * t + 1) := by
    have := pow_nonneg (by linarith : (0:ℚ) ≤ 1 - t) 3
    nlinarith [sq_nonneg t]
  linarith [h2 ▸ h3]

/-- A linear interpolation with weight in [0, 1] is bounded by the weighted
absolute values of its endpoints. -/
theorem abs_lerp_le {t : ℚ} (a b : ℚ) (ht : 0 ≤ t) (ht1 : t ≤ 1) :
    |lerp t a b| ≤ (1 - t) * |a| + t * |b| := by
  have h : lerp t a b = (1 - t) * a + t * b := by unfold lerp; ring
  rw [h]
  calc |(1 - t) * a + t * b| ≤ |(1 - t) * a| + |t * b| := abs_add _ _
    _ = (1 - t) * |a| + t * |b| := by
        rw [abs_mul, abs_mul, abs_of_nonneg (by linarith : (0:ℚ) ≤ 1 - t),
          abs_of_nonneg ht]

/-- Every gradient value is bounded by the sum of the absolute coordinates,
for every hash value. -/
theorem grad_abs_le (hash : ℕ) (x y : ℚ) : |grad hash x y| ≤ |x| + |y| := by
  simp only [grad]
  split_ifs <;>
    refine (abs_add _ _).trans ?_ <;>
    (try simp only [abs_neg]) <;> linarith

/-- Key pointwise estimate: with the fade weight, the blended distance
`(1 - fade t) * t + fade t * (1 - t)` never exceeds 1/2 on [0, 1). -/
theorem fade_blend_le_half {t : ℚ} (ht : 0 ≤ t) (ht1 : t < 1) :
    (1 - fade t) * t + fade t * (1 - t) ≤ 1/2 := by
  have hkey : (1 - fade t) * t + fade t * (1 - t) - 1/2 =
      -(1/2) * ((2*t - 1)^2 * (6*t^4 - 12*t^3 + 4*t^2 + 2*t + 1)) := by
    unfold fade; ring
  have hq : (0:ℚ) ≤ 6*t^4 - 12*t^3 + 4*t^2 + 2*t + 1 := by
    have h1 : (0:ℚ) ≤ t * (1 - t) := mul_nonneg ht (by linarith)
    nlinarith [sq_nonneg (t * (t - 1))]
  have := mul_nonneg (sq_nonneg (2*t - 1)) hq
  linarith

/-- The absolute value of Noise2D is at most 1, for every permutation table
and all rational inputs. -/
theorem abs_noise2D_le_one (perm : ℕ → ℕ) (x y : ℚ) :
    |Noise2D perm x y| ≤ 1 := by
  have hxf0 : (0:ℚ) ≤ x - ⌊x⌋ := by have := Int.floor_le x; linarith
  have hxf1 : x - ⌊x⌋ < 1 := by have := Int.lt_floor_add_one x; linarith
  have hyf0 : (0:ℚ) ≤ y - ⌊y⌋ := by have := Int.floor_le y; linarith
  have hyf1 : y - ⌊y⌋ < 1 := by have := Int.lt_floor_add_one y; linarith
  set xf := x - (⌊x⌋ : ℚ) with hxf
  set yf := y - (⌊y⌋ : ℚ) with hyf
  have hu0 : 0 ≤ fade xf := fade_nonneg hxf0
  have hu1 : fade xf ≤ 1 := fade_le_one hxf0 hxf1.le
  have hv0 : 0 ≤ fade yf := fade_nonneg hyf0
  have hv1 : fade yf ≤ 1 := fade_le_one hyf0 hyf1.le
  -- bounds on the four corner gradients
  have habs1 : |xf| = xf := abs_of_nonneg hxf0
  have habs2 : |yf| = yf := abs_of_nonneg hyf0
  have habs3 : |xf - 1| = 1 - xf := by rw [abs_sub_comm, abs_of_nonneg (by linarith)]
  have habs4 : |yf - 1| = 1 - yf := by rw [abs_sub_comm, abs_of_nonneg (by linarith)]
  have hg00 : ∀ h : ℕ, |grad h xf yf| ≤ xf + yf := fun h => by
    have := grad_abs_le h xf yf; rw [habs1, habs2] at this; exact this
  have hg10 : ∀ h : ℕ, |grad h (xf - 1) yf| ≤ (1 - xf) + yf := fun h => by
    have := grad_abs_le h (xf - 1) yf; rw [habs3, habs2] at this; exact this
  have hg01 : ∀ h : ℕ, |grad h xf (yf - 1)| ≤ xf + (1 - yf) := fun h => by
    have := grad_abs_le h xf (yf - 1); rw [habs1, habs4] at this; exact this
  have hg11 : ∀ h : ℕ, |grad h (xf - 1) (yf - 1)| ≤ (1 - xf) + (1 - yf) := fun h => by
    have := grad_abs_le h (xf - 1) (yf - 1); rw [habs3, habs4] at this; exact this
  have key : ∀ h00 h10 h01 h11 : ℕ,
      |lerp (fade yf)
        (lerp (fade xf) (grad h00 xf yf) (grad h10 (xf - 1) yf))
        (lerp (fade xf) (grad h01 xf (yf - 1)) (grad h11 (xf - 1) (yf - 1)))| ≤ 1 := by
    intro h00 h10 h01 h11
    have hL1 : |lerp (fade xf) (grad h00 xf yf) (grad h10 (xf - 1) yf)| ≤
        (1 - fade xf) * (xf + yf) + fade xf * ((1 - xf) + yf) := by
      refine (abs_lerp_le _ _ hu0 hu1).trans ?_
      exact add_le_add (mul_le_mul_of_nonneg_left (hg00 h00) (by linarith))
        (mul_le_mul_of_nonneg_left (hg10 h10) hu0)
    have hL2 : |lerp (fade xf) (grad h01 xf (yf - 1)) (grad h11 (xf - 1) (yf - 1))| ≤
        (1 - fade xf) * (xf + (1 - yf)) + fade xf * ((1 - xf) + (1 - yf)) := by
      refine (abs_lerp_le _ _ hu0 hu1).trans ?_
      exact add_le_add (mul_le_mul_of_nonneg_left (hg01 h01) (by linarith))
        (mul_le_mul_of_nonneg_left (hg11 h11) hu0)
    refine (abs_lerp_le _ _ hv0 hv1).trans ?_
    have hstep : (1 - fade yf) * ((1 - fade xf) * (xf + yf) + fade xf * ((1 - xf) + yf)) +
        fade yf * ((1 - fade xf) * (xf + (1 - yf)) + fade xf * ((1 - xf) + (1 - yf))) =
        ((1 - fade xf) * xf + fade xf * (1 - xf)) +
        ((1 - fade yf) * yf + fade yf * (1 - yf)) := by ring
    have hphix := fade_blend_le_half hxf0 hxf1
    have hphiy := fade_blend_le_half hyf0 hyf1
    have hmono := add_le_add
      (mul_le_mul_of_nonneg_left hL1 (by linarith : (0:ℚ) ≤ 1 - fade yf))
      (mul_le_mul_of_nonneg_left hL2 hv0)
    calc (1 - fade yf) * |lerp (fade xf) (grad h00 xf yf) (grad h10 (xf - 1) yf)| +
          fade yf * |lerp (fade xf) (grad h01 xf (yf - 1)) (grad h11 (xf - 1) (yf - 1))|
        ≤ (1 - fade yf) * ((1 - fade xf) * (xf + yf) + fade xf * ((1 - xf) + yf)) +
          fade yf * ((1 - fade xf) * (xf + (1 - yf)) + fade xf * ((1 - xf) + (1 - yf))) := hmono
      _ = ((1 - fade xf) * xf + fade xf * (1 - xf)) +
          ((1 - fade yf) * yf + fade yf * (1 - yf)) := hstep
      _ ≤ 1/2 + 1/2 := add_le_add hphix hphiy
      _ = 1 := by norm_num
  simpa only [Noise2D] using key _ _ _ _

/-- C3: for every permutation table (hence for every construction seed) and
every rational input pair, Noise2D lies in the closed interval [-1, 1]; and
it is deterministic — two calls with identical inputs on the same field
return identical results. -/
theorem noise2D_range_and_det (perm : ℕ → ℕ) (x y x2 y2 : ℚ)
    (hx : x2 = x) (hy : y2 = y) :
    (-1 ≤ Noise2D perm x y ∧ Noise2D perm x y ≤ 1) ∧
    Noise2D perm x2 y2 = Noise2D perm x y := by
  refine ⟨abs_le.mp (abs_noise2D_le_one perm x y), ?_⟩
  rw [hx, hy]

/-- Witness for `noise2D_range_and_det` at a concrete permutation table and
input. -/
theorem noise2D_range_and_det_witness :
    ((3:ℚ)/2 = 3/2 ∧ (-7:ℚ)/3 = -7/3) ∧
    ((-1 ≤ Noise2D (fun n => n + 1) (3/2) (-7/3) ∧
      Noise2D (fun n => n + 1) (3/2) (-7/3) ≤ 1) ∧
     Noise2D (fun n => n + 1) (3/2) (-7/3) = Noise2D (fun n => n + 1) (3/2) (-7/3)) :=
  ⟨⟨rfl, rfl⟩, noise2D_range_and_det (fun n => n + 1) (3/2) (-7/3) (3/2) (-7/3) rfl rfl⟩

/-- C8: for every chunk coordinate with chunkY more than 3 chunks above or
below the player's chunk row, generateChunk returns a chunk with an empty
block sequence; and generation is total — for all integer coordinates it
returns a chunk carrying exactly those coordinates. -/
theorem generateChunk_band_empty_total (tg : TerrainGen) (px py : ℚ)
    (chunkX chunkY : ℤ)
    (hband : chunkY > ⌊py / ChunkWorldSize⌋ + 3 ∨ chunkY < ⌊py / ChunkWorldSize⌋ - 3) :
    (generateChunk tg px py chunkX chunkY).blocks = [] ∧
    (generateChunk tg px py chunkX chunkY).cx = chunkX ∧
    (generateChunk tg px py chunkX chunkY).cy = chunkY := by
  simp only [generateChunk]
  rw [if_pos hband]
  exact ⟨rfl, rfl, rfl⟩

/-- Witness for `generateChunk_band_empty_total`: chunk row 4 with the player
in row 0 generates empty. -/
theorem generateChunk_band_empty_total_witness :
    ((4 : ℤ) > ⌊(0 : ℚ) / ChunkWorldSize⌋ + 3 ∨ (4 : ℤ) < ⌊(0 : ℚ) / ChunkWorldSize⌋ - 3) ∧
    (generateChunk ⟨fun _ => 0, fun _ => .plains, fun _ _ => false,
        fun _ _ _ => false, fun _ _ => 0, fun _ => 0, fun _ => 0⟩ 0 0 2 4).blocks = [] := by
  have hfl : ⌊(0 : ℚ) / ChunkWorldSize⌋ = 0 := by
    unfold ChunkWorldSize; norm_num
  have hband : (4 : ℤ) > ⌊(0 : ℚ) / ChunkWorldSize⌋ + 3 ∨
      (4 : ℤ) < ⌊(0 : ℚ) / ChunkWorldSize⌋ - 3 := by
    left; rw [hfl]; norm_num
  exact ⟨hband, (generateChunk_band_empty_total _ 0 0 2 4 hband).1⟩

/-- C9: a first loadChunk call on a key absent from the chunk cache stores
the freshly generated chunk under that key and appends its blocks to the
world block list; any later call with the same key (the cache now hits)
returns the state completely unchanged. -/
theorem loadChunk_idempotent (tg : TerrainGen) (g : Game) (chunkX chunkY : ℤ)
    (hmiss : g.chunks.lookup (chunkKey chunkX chunkY) = none) :
    loadChunk tg g chunkX chunkY =
      { g with chunks := (chunkKey chunkX chunkY,
                  generateChunk tg g.playerX g.playerY chunkX chunkY) :: g.chunks,
               blocks := g.blocks ++
                  (generateChunk tg g.playerX g.playerY chunkX chunkY).blocks } ∧
    loadChunk tg (loadChunk tg g chunkX chunkY) chunkX chunkY =
      loadChunk tg g chunkX chunkY := by
  have h1 : loadChunk tg g chunkX chunkY =
      { g with chunks := (chunkKey chunkX chunkY,
                  generateChunk tg g.playerX g.playerY chunkX chunkY) :: g.chunks,
               blocks := g.blocks ++
                  (generateChunk tg g.playerX g.playerY chunkX chunkY).blocks } := by
    unfold loadChunk
    rw [hmiss]
  refine ⟨h1, ?_⟩
  rw [h1]
  unfold loadChunk
  simp [List.lookup]

/-- Witness for `loadChunk_idempotent`: loading chunk (0, 9) into an empty
cache (band guard makes the generated chunk empty, which is irrelevant to
the caching behaviour being witnessed). -/
theorem loadChunk_idempotent_witness :
    (([] : List (String × Chunk)).lookup (chunkKey 0 9) = none) ∧
    loadChunk ⟨fun _ => 0, fun _ => .plains, fun _ _ => false,
        fun _ _ _ => false, fun _ _ => 0, fun _ => 0, fun _ => 0⟩
      ⟨0, 0, 0, false, 0, 0, [], [], 0, 0, 0, ItemType.grass⟩ 0 9 =
      { (⟨0, 0, 0, false, 0, 0, [], [], 0, 0, 0, ItemType.grass⟩ : Game) with
          chunks := [(chunkKey 0 9,
            generateChunk ⟨fun _ => 0, fun _ => .plains, fun _ _ => false,
              fun _ _ _ => false, fun _ _ => 0, fun _ => 0, fun _ => 0⟩ 0 0 0 9)],
          blocks := [] ++ (generateChunk ⟨fun _ => 0, fun _ => .plains, fun _ _ => false,
              fun _ _ _ => false, fun _ _ => 0, fun _ => 0, fun _ => 0⟩ 0 0 0 9).blocks } := by
  refine ⟨rfl, ?_⟩
  exact (loadChunk_idempotent
    ⟨fun _ => 0, fun _ => .plains, fun _ _ => false,
        fun _ _ _ => false, fun _ _ => 0, fun _ => 0, fun _ => 0⟩
    ⟨0, 0, 0, false, 0, 0, [], [], 0, 0, 0, ItemType.grass⟩ 0 9 rfl).1

/-- Every block emitted by one generation column has height BlockSize, and
width BlockSize, 2·BlockSize or 3·BlockSize (the wide cases are exactly the
tree-canopy blocks). -/
theorem genColumn_dims (tg : TerrainGen) (ns : Bool) (wx : ℤ) :
    ∀ b ∈ genColumn tg ns wx, b.h = BlockSize ∧
      (b.w = BlockSize ∨ b.w = BlockSize * 2 ∨ b.w = BlockSize * 3) := by
  intro b hb
  simp only [genColumn] at hb
  split at hb
  · simp at hb
  · simp only [List.mem_append] at hb
    rcases hb with (hb | hb) | hb
    · rcases List.mem_filterMap.mp hb with ⟨a, _, ha⟩
      split at ha
      · exact absurd ha (by simp)
      · cases Option.some.inj ha
        exact ⟨rfl, Or.inl rfl⟩
    · split at hb
      · simp only [List.mem_append] at hb
        rcases hb with hb | hb
        · rcases List.mem_map.mp hb with ⟨i, _, hi⟩
          cases hi
          exact ⟨rfl, Or.inl rfl⟩
        · split at hb
          · simp only [List.mem_append] at hb
            rcases hb with hb | hb
            · rcases List.mem_singleton.mp hb with rfl
              exact ⟨rfl, Or.inr (Or.inr rfl)⟩
            · split at hb
              · rcases List.mem_singleton.mp hb with rfl
                exact ⟨rfl, Or.inr (Or.inr rfl)⟩
              · simp at hb
          · split at hb
            · rcases List.mem_map.mp hb with ⟨i, hi3, hi⟩
              cases hi
              refine ⟨rfl, ?_⟩
              have hi3' : i < 3 := by simpa using hi3
              interval_cases i
              · right; right
                show BlockSize * ((3 : ℚ) - ((0 : ℕ) : ℤ)) = BlockSize * 3
                norm_num
              · right; left
                show BlockSize * ((3 : ℚ) - ((1 : ℕ) : ℤ)) = BlockSize * 2
                norm_num
              · left
                show BlockSize * ((3 : ℚ) - ((2 : ℕ) : ℤ)) = BlockSize
                norm_num
            · simp at hb
      · simp at hb
    · split at hb
      · split at hb
        · rcases List.mem_map.mp hb with ⟨i, _, hi⟩
          cases hi
          exact ⟨rfl, Or.inl rfl⟩
        · simp at hb
      · split at hb
        · split at hb
          · rcases List.mem_singleton.mp hb with rfl
            exact ⟨rfl, Or.inl rfl⟩
          · simp at hb
        · simp at hb

/-- C2 (amended): every block created by chunk generation has height
BlockSize and width BlockSize, 2·BlockSize or 3·BlockSize — not always
width BlockSize, because canopy blocks are up to three cells wide — and
every player-placed block (addBlock) is exactly BlockSize × BlockSize. -/
theorem block_dims (tg : TerrainGen) (px py : ℚ) (chunkX chunkY : ℤ)
    (g : Game) (x y : ℚ) :
    (∀ b ∈ (generateChunk tg px py chunkX chunkY).blocks,
      b.h = BlockSize ∧
        (b.w = BlockSize ∨ b.w = BlockSize * 2 ∨ b.w = BlockSize * 3)) ∧
    (∀ b ∈ (addBlock g x y).blocks,
      b ∈ g.blocks ∨ (b.w = BlockSize ∧ b.h = BlockSize)) := by
  constructor
  · intro b hb
    simp only [generateChunk] at hb
    split at hb
    · simp at hb
    · simp only [List.mem_flatMap] at hb
      rcases hb with ⟨i, _, hb⟩
      exact genColumn_dims _ _ _ b hb
  · intro b hb
    unfold addBlock at hb
    split at hb
    · exact Or.inl hb
    · split at hb
      · simp only [List.mem_append] at hb
        rcases hb with hb | hb
        · exact Or.inl hb
        · rcases List.mem_singleton.mp hb with rfl
          exact Or.inr ⟨rfl, rfl⟩
      · split at hb
        · split at hb
          · simp only [List.mem_append] at hb
            rcases hb with hb | hb
            · exact Or.inl hb
            · rcases List.mem_singleton.mp hb with rfl
              exact Or.inr ⟨rfl, rfl⟩
          · exact Or.inl hb
        · exact Or.inl hb

/-- Witness for `block_dims` at a trivial generator, chunk (0, 9) (empty by
the band guard) and a creative placement on an empty world. -/
theorem block_dims_witness :
    (∀ b ∈ (generateChunk ⟨fun _ => 0, fun _ => .plains, fun _ _ => false,
        fun _ _ _ => false, fun _ _ => 0, fun _ => 0, fun _ => 0⟩ 0 0 0 9).blocks,
      b.h = BlockSize ∧
        (b.w = BlockSize ∨ b.w = BlockSize * 2 ∨ b.w = BlockSize * 3)) ∧
    (∀ b ∈ (addBlock ⟨0, 0, 0, false, 0, 0, [], [], 0, 0, 0, ItemType.grass⟩ 100 100).blocks,
      b ∈ (⟨0, 0, 0, false, 0, 0, [], [], 0, 0, 0, ItemType.grass⟩ : Game).blocks ∨
        (b.w = BlockSize ∧ b.h = BlockSize)) :=
  block_dims ⟨fun _ => 0, fun _ => .plains, fun _ _ => false,
    fun _ _ _ => false, fun _ _ => 0, fun _ => 0, fun _ => 0⟩ 0 0 0 9
    ⟨0, 0, 0, false, 0, 0, [], [], 0, 0, 0, ItemType.grass⟩ 100 100

/-- Counterexample to C2 as stated: chunk generation emits the canopy block
(2450, 250) of width 150 = 3·BlockSize ≠ BlockSize (chunk (5, 0), column
worldX = 50, forest tree of height 4). -/
theorem generated_block_width_ne_blockSize :
    (⟨2450, 250, 150, 50, ItemType.grass⟩ : Block) ∈
      (generateChunk tgForest 0 0 5 0).blocks ∧
    (⟨2450, 250, 150, 50, ItemType.grass⟩ : Block).w ≠ BlockSize := by
  constructor
  · have hfl : ⌊(0 : ℚ) / ChunkWorldSize⌋ = 0 := by
      unfold ChunkWorldSize; norm_num
    simp only [generateChunk, hfl]
    rw [if_neg (by norm_num)]
    simp only [List.mem_flatMap]
    refine ⟨0, by simp [ChunkSize], ?_⟩
    have hns : decide ((0 : ℤ) - 1 ≤ (5 : ℤ) ∧ (5 : ℤ) ≤ 0 + 1 ∧ True) = false := by
      decide
    rw [hns]
    have hwx : (5 : ℤ) * ChunkSize + ((0 : ℕ) : ℤ) = 50 := by
      unfold ChunkSize; norm_num
    rw [hwx]
    simp only [genColumn, tgForest]
    rw [if_neg (by simp)]
    refine List.mem_append.mpr (Or.inl (List.mem_append.mpr (Or.inr ?_)))
    rw [if_pos (by simp)]
    refine List.mem_append.mpr (Or.inr ?_)
    rw [if_pos (by simp)]
    refine List.mem_append.mpr (Or.inl ?_)
    have : (⟨2450, 250, 150, 50, ItemType.grass⟩ : Block) =
        ⟨((50 : ℤ) : ℚ) * BlockSize - BlockSize, (((0 : ℤ) + 4 + 1 : ℤ) : ℚ) * BlockSize,
          BlockSize * 3, BlockSize, ItemType.grass⟩ := by
      unfold BlockSize
      norm_num
    rw [this]
    exact List.mem_singleton.mpr rfl
  · show (150 : ℚ) ≠ BlockSize
    unfold BlockSize; norm_num

/-- checkCollision of the player rect is exactly the Overlaps proposition. -/
theorem checkCollision_player_iff (px py : ℚ) (b : Block) :
    checkCollision (playerRect px py) b = true ↔ Overlaps px py b := by
  unfold checkCollision playerRect Overlaps
  simp

/-- A fold whose steps all fix the accumulator returns it unchanged. -/
theorem foldl_fix {α β : Type} (f : α → β → α) (l : List β) (a : α)
    (h : ∀ b ∈ l, f a b = a) : List.foldl f a l = a := by
  induction l with
  | nil => rfl
  | cons b t ih =>
      simp only [List.foldl_cons]
      rw [h b (by simp)]
      exact ih fun b' hb' => h b' (by simp [hb'])

/-- A fold in which every step either fixes the start state or jumps to an
absorbing state, with at least one jumping step, ends in the absorbing
state. -/
theorem foldl_absorb {α β : Type} (f : α → β → α) (l : List β) (s₀ s₁ : α)
    (h0 : ∀ b ∈ l, f s₀ b = s₀ ∨ f s₀ b = s₁)
    (h1 : ∀ b ∈ l, f s₁ b = s₁)
    (hex : ∃ b ∈ l, f s₀ b = s₁) :
    List.foldl f s₀ l = s₁ := by
  induction l with
  | nil => simp at hex
  | cons b t ih =>
      simp only [List.foldl_cons]
      rcases h0 b (by simp) with hb | hb
      · rw [hb]
        rcases hex with ⟨b', hb', hb'map⟩
        rcases List.mem_cons.mp hb' with rfl | hb't
        · have hs : s₀ = s₁ := by rw [← hb, hb'map]
          rw [hs]
          exact foldl_fix _ _ _ fun b2 hb2 => h1 b2 (by simp [hb2])
        · exact ih (fun b2 hb2 => h0 b2 (by simp [hb2]))
            (fun b2 hb2 => h1 b2 (by simp [hb2])) ⟨b', hb't, hb'map⟩
      · rw [hb]
        exact foldl_fix _ _ _ fun b2 hb2 => h1 b2 (by simp [hb2])

/-- The vertical loop preserves the invariant that a set grounded flag comes
with zero vertical velocity. -/
theorem vertResolve_og_imp_vy (oldY : ℚ) (rect : Block) (blocks : List Block)
    (s : VState) (hs : s.og = true → s.vy = 0) :
    (vertResolve oldY rect blocks s).og = true →
      (vertResolve oldY rect blocks s).vy = 0 := by
  induction blocks generalizing s with
  | nil => exact hs
  | cons b t ih =>
      simp only [vertResolve, List.foldl_cons] at *
      apply ih
      unfold vstep
      split
      · split
        · intro _; rfl
        · split
          · intro _; rfl
          · exact hs
      · exact hs

/-- C10: at the end of every simulation step, a set grounded flag implies
zero vertical velocity: the flag enters the vertical loop cleared, is only
set by the landing branch, which zeroes the velocity, and nothing after the
loop writes the velocity. -/
theorem updatePhysics_grounded_zero_velocity (g : Game) (inp : Input)
    (h : (updatePhysics g inp).playerOnGround = true) :
    (updatePhysics g inp).playerVelocityY = 0 := by
  simp only [updatePhysics, stepVert] at h ⊢
  exact vertResolve_og_imp_vy _ _ _ _ (by simp) h

/-- Witness for `updatePhysics_grounded_zero_velocity`: the player at rest
on `probeBlock` is grounded with zero velocity after one step. -/
theorem updatePhysics_grounded_zero_velocity_witness :
    (updatePhysics restGame noInput).playerOnGround = true ∧
    (updatePhysics restGame noInput).playerVelocityY = 0 := by
  have hog : (updatePhysics restGame noInput).playerOnGround = true := by
    norm_num [updatePhysics, stepVert, resolvedX, stepVy, moveX, boundX,
      restGame, noInput, horizResolve, vertResolve,
      hstep, vstep, checkCollision, playerRect, probeBlock, PlayerSize,
      PlayerSpeed, Gravity, JumpPower, PlayerMaxFall]
  exact ⟨hog, updatePhysics_grounded_zero_velocity restGame noInput hog⟩

/-- C5: a player resting exactly on top of a block (y = block.y − PlayerSize,
horizontal overlap, zero vertical velocity, grounded) who takes one step
with no input ends the step with the same y, zero velocity and the grounded
flag still set: gravity turns the velocity into 0.5, the position dips by
0.5, and the landing branch clamps back.  The block-set hypotheses (cell
grid, height 50) hold for every block the program creates. -/
theorem grounded_rest_step (g : Game) (b : Block) (hmem : b ∈ g.blocks)
    (hgrid : ∀ b2 ∈ g.blocks, (∃ k : ℤ, b2.y = 50 * k) ∧ b2.h = 50)
    (hmin : g.worldMinX = 0)
    (hy : g.playerY = b.y - PlayerSize)
    (hh1 : g.playerX < b.x + b.w) (hh2 : g.playerX + PlayerSize > b.x)
    (hvy : g.playerVelocityY = 0) (_hog : g.playerOnGround = true) :
    (updatePhysics g noInput).playerY = g.playerY ∧
    (updatePhysics g noInput).playerVelocityY = 0 ∧
    (updatePhysics g noInput).playerOnGround = true := by
  have hps : PlayerSize = 50 := rfl
  -- input-dependent pieces of the step degenerate
  have hA : (if noInput.left = true then g.playerX - PlayerSpeed else g.playerX)
      = g.playerX := if_neg (by simp [noInput])
  have hB : (if noInput.right = true then g.playerX + PlayerSpeed else g.playerX)
      = g.playerX := if_neg (by simp [noInput])
  have hJ : (if noInput.jump = true ∧ g.playerOnGround = true then -JumpPower
      else g.playerVelocityY) = g.playerVelocityY := if_neg (by simp [noInput])
  have hG : g.playerVelocityY + Gravity = 1/2 := by rw [hvy]; unfold Gravity; norm_num
  have hF : (if (1/2 : ℚ) > PlayerMaxFall then PlayerMaxFall else (1/2 : ℚ)) = 1/2 :=
    if_neg (by unfold PlayerMaxFall; norm_num)
  -- the horizontal loop fixes x: every colliding block fails both clamps
  have hx : horizResolve g.playerX (playerRect g.playerX g.playerY) g.blocks
      g.playerX = g.playerX := by
    apply foldl_fix
    intro b2 _
    unfold hstep
    by_cases hc : checkCollision (playerRect g.playerX g.playerY) b2 = true
    · have hov := (checkCollision_player_iff _ _ _).mp hc
      rw [if_pos hc, if_neg (by linarith [hov.2.1]), if_neg (by linarith [hov.1])]
    · rw [if_neg hc]
  -- the vertical loop lands back on the block
  have hvert : vertResolve g.playerY (playerRect g.playerX (g.playerY + 1/2))
      g.blocks ⟨g.playerY + 1/2, 1/2, false⟩ = ⟨g.playerY, 0, true⟩ := by
    apply foldl_absorb
    · -- every block either fixes the falling state or lands it
      intro b2 hb2
      by_cases hc : checkCollision (playerRect g.playerX (g.playerY + 1/2)) b2 = true
      · have hov := (checkCollision_player_iff _ _ _).mp hc
        obtain ⟨⟨k2, hk2⟩, hh50⟩ := hgrid b2 hb2
        obtain ⟨kb, hkb⟩ := (hgrid b hmem).1
        have hv1 : g.playerY + 1/2 < b2.y + b2.h := hov.2.2.1
        have hv2 : g.playerY + 1/2 + PlayerSize > b2.y := hov.2.2.2
        -- b2 sits on the same row as b, or exactly one row below
        have hklow : kb - 2 < k2 := by
          have : (kb : ℚ) - 2 < (k2 : ℚ) := by
            rw [hps] at hy hv2
            rw [hkb] at hy
            rw [hk2] at hv2
            linarith
          exact_mod_cast this
        have hkhigh : k2 < kb + 1 := by
          have : (k2 : ℚ) < (kb : ℚ) + 1 := by
            rw [hps] at hy
            rw [hkb] at hy
            rw [hk2, hh50] at hv1
            linarith
          exact_mod_cast this
        rcases (by omega : k2 = kb ∨ k2 = kb - 1) with hk | hk
        · -- same row: the landing branch fires and produces the rest state
          right
          unfold vstep
          rw [if_pos hc, if_pos ⟨by norm_num, by simp [hy, hk2, hkb, hk, hps]⟩]
          have : b2.y - PlayerSize = g.playerY := by
            rw [hy, hk2, hkb, hk, hps]; try ring
          rw [this]
        · -- one row below: both branches fail, the state is untouched
          left
          unfold vstep
          rw [if_pos hc, if_neg ?_, if_neg ?_]
          · rintro ⟨-, hcmp⟩
            simp only [hy, hkb, hk2, hk, hh50, hps] at hcmp
            push_cast at hcmp
            linarith
          · rintro ⟨-, hcmp⟩
            simp only [hy, hkb, hk2, hk, hh50, hps] at hcmp
            push_cast at hcmp
            linarith
      · left; unfold vstep; rw [if_neg hc]
    · -- the rest state absorbs: zero velocity fails both branch guards
      intro b2 _
      unfold vstep
      by_cases hc : checkCollision (playerRect g.playerX (g.playerY + 1/2)) b2 = true
      · rw [if_pos hc, if_neg (by rintro ⟨h0, -⟩; norm_num at h0),
          if_neg (by rintro ⟨h0, -⟩; norm_num at h0)]
      · rw [if_neg hc]
    · -- the supporting block itself lands the state
      refine ⟨b, hmem, ?_⟩
      have hc : checkCollision (playerRect g.playerX (g.playerY + 1/2)) b = true := by
        refine (checkCollision_player_iff _ _ _).mpr ⟨hh1, hh2, ?_, ?_⟩
        · rw [hy, (hgrid b hmem).2, hps]; linarith
        · rw [hy, hps]; linarith
      unfold vstep
      rw [if_pos hc, if_pos ⟨by norm_num, le_of_eq hy⟩]
      have : b.y - PlayerSize = g.playerY := by rw [hy]
      rw [this]
  have hmx : moveX g noInput = g.playerX := by simp only [moveX, hA, hB]
  have hrx : resolvedX g noInput = g.playerX := by
    rw [resolvedX, hmx, hx, boundX]
    exact if_neg (by simp [hmin])
  have hsv : stepVy g noInput = 1/2 := by simp only [stepVy, hJ, hG, hF]
  have hsvert : stepVert g noInput = ⟨g.playerY, 0, true⟩ := by
    rw [stepVert, hrx, hsv]; exact hvert
  refine ⟨?_, ?_, ?_⟩ <;> simp [updatePhysics, hsvert]

/-- Witness for `grounded_rest_step`: the player at rest on `probeBlock`. -/
theorem grounded_rest_step_witness :
    (updatePhysics restGame noInput).playerY = restGame.playerY ∧
    (updatePhysics restGame noInput).playerVelocityY = 0 ∧
    (updatePhysics restGame noInput).playerOnGround = true :=
  grounded_rest_step restGame probeBlock (by simp [restGame])
    (by intro b2 hb2
        simp only [restGame, List.mem_singleton] at hb2
        subst hb2
        exact ⟨⟨0, by norm_num [probeBlock]⟩, by norm_num [probeBlock]⟩)
    rfl
    (by norm_num [restGame, probeBlock, PlayerSize])
    (by norm_num [restGame, probeBlock])
    (by norm_num [restGame, probeBlock, PlayerSize])
    rfl rfl

/-- Horizontal safety: if the player overlaps no block before the move, the
input displacement is at most PlayerSpeed, and all blocks sit on the program
grid, then the position produced by the horizontal resolution loop overlaps
no block either. -/
theorem horiz_safe (blocks : List Block) (oldX x1 y : ℚ)
    (hgrid : ∀ b ∈ blocks, OnGrid b)
    (hpre : ∀ b ∈ blocks, ¬ Overlaps oldX y b)
    (hd : |x1 - oldX| ≤ 4) :
    ∀ b ∈ blocks, ¬ Overlaps (horizResolve oldX (playerRect x1 y) blocks x1) y b := by
  have hps : PlayerSize = (50:ℚ) := rfl
  by_cases hex : ∃ b ∈ blocks, checkCollision (playerRect x1 y) b = true
  · obtain ⟨b0, hb0m, hb0c⟩ := hex
    have hov0 := (checkCollision_player_iff _ _ _).mp hb0c
    have hguard : ∀ b ∈ blocks, Overlaps x1 y b →
        (oldX ≤ b.x - PlayerSize ∨ oldX ≥ b.x + b.w) := by
      intro b hbm hov
      by_contra hcon
      push_neg at hcon
      exact hpre b hbm ⟨hcon.2, by linarith [hcon.1, hps], hov.2.2.1, hov.2.2.2⟩
    rcases hguard b0 hb0m hov0 with hdir | hdir
    · -- every colliding block is approached from the left
      have hxold : oldX < x1 := by linarith [hov0.2.1, hps]
      have hall : ∀ b ∈ blocks, Overlaps x1 y b → oldX ≤ b.x - PlayerSize := by
        intro b hbm hov
        rcases hguard b hbm hov with h | h
        · exact h
        · exact absurd hov.1 (by linarith)
      have hd' : x1 - oldX ≤ 4 := by
        have h := abs_of_nonneg (show (0:ℚ) ≤ x1 - oldX by linarith)
        rw [h] at hd; exact hd
      have hxeq : ∀ b ∈ blocks, Overlaps x1 y b → b.x = b0.x := by
        intro b hbm hov
        obtain ⟨i, hi⟩ := (hgrid b hbm).1
        obtain ⟨i0, hi0⟩ := (hgrid b0 hb0m).1
        have h1 := hall b hbm hov
        have h2 : b.x - PlayerSize < x1 := by linarith [hov.2.1, hps]
        have h10 := hdir
        have h20 : b0.x - PlayerSize < x1 := by linarith [hov0.2.1, hps]
        have hii : i = i0 := by
          have c1 : (i : ℚ) < (i0 : ℚ) + 1 := by
            rw [hi] at h1 h2; rw [hi0] at h10 h20; linarith
          have c2 : (i0 : ℚ) < (i : ℚ) + 1 := by
            rw [hi] at h1 h2; rw [hi0] at h10 h20; linarith
          have d1 : i < i0 + 1 := by exact_mod_cast c1
          have d2 : i0 < i + 1 := by exact_mod_cast c2
          omega
        rw [hi, hi0, hii]
      have hres : horizResolve oldX (playerRect x1 y) blocks x1 = b0.x - PlayerSize := by
        apply foldl_absorb
        · intro b hbm
          by_cases hc : checkCollision (playerRect x1 y) b = true
          · have hov := (checkCollision_player_iff _ _ _).mp hc
            right
            unfold hstep
            rw [if_pos hc, if_pos (hall b hbm hov), hxeq b hbm hov]
          · left; unfold hstep; rw [if_neg hc]
        · intro b hbm
          by_cases hc : checkCollision (playerRect x1 y) b = true
          · have hov := (checkCollision_player_iff _ _ _).mp hc
            unfold hstep
            rw [if_pos hc, if_pos (hall b hbm hov), hxeq b hbm hov]
          · unfold hstep; rw [if_neg hc]
        · exact ⟨b0, hb0m, by unfold hstep; rw [if_pos hb0c, if_pos hdir]⟩
      rw [hres]
      try dsimp only
      intro b hbm hov
      by_cases hbc : Overlaps x1 y b
      · have hbx := hxeq b hbm hbc
        have h21 := hov.2.1
        rw [hbx] at h21
        linarith [hps]
      · have hvert := hov.2.2
        have hOld : oldX ≥ b.x + b.w ∨ oldX + PlayerSize ≤ b.x := by
          by_contra hcon
          push_neg at hcon
          exact hpre b hbm ⟨hcon.1, hcon.2, hvert.1, hvert.2⟩
        have hNew : x1 ≥ b.x + b.w ∨ x1 + PlayerSize ≤ b.x := by
          by_contra hcon
          push_neg at hcon
          exact hbc ⟨hcon.1, hcon.2, hvert.1, hvert.2⟩
        have hcl : oldX ≤ b0.x - PlayerSize := hdir
        have hcu : b0.x - PlayerSize < x1 := by linarith [hov0.2.1, hps]
        have hw : (50:ℚ) ≤ b.w := (hgrid b hbm).2.2.1
        rcases hOld with h | h
        · exact absurd hov.1 (by linarith)
        · rcases hNew with h2 | h2
          · linarith [hps]
          · exact absurd hov.2.1 (by linarith)
    · -- every colliding block is approached from the right
      have hxold : x1 < oldX := by linarith [hov0.1]
      have hall : ∀ b ∈ blocks, Overlaps x1 y b → oldX ≥ b.x + b.w := by
        intro b hbm hov
        rcases hguard b hbm hov with h | h
        · exact absurd hov.2.1 (by linarith [hps])
        · exact h
      have hd' : oldX - x1 ≤ 4 := by
        have h := abs_of_nonpos (show x1 - oldX ≤ 0 by linarith)
        rw [h] at hd; linarith
      have hg1f : ∀ b ∈ blocks, Overlaps x1 y b → ¬(oldX ≤ b.x - PlayerSize) := by
        intro b hbm hov hle
        have hw : (50:ℚ) ≤ b.w := (hgrid b hbm).2.2.1
        have := hall b hbm hov
        linarith [hps]
      have hxeq : ∀ b ∈ blocks, Overlaps x1 y b → b.x + b.w = b0.x + b0.w := by
        intro b hbm hov
        obtain ⟨i, hi⟩ := (hgrid b hbm).1
        obtain ⟨j, hj⟩ := (hgrid b hbm).2.1
        obtain ⟨i0, hi0⟩ := (hgrid b0 hb0m).1
        obtain ⟨j0, hj0⟩ := (hgrid b0 hb0m).2.1
        have e1 : b.x + b.w = 25 * ((i + j : ℤ) : ℚ) := by
          rw [hi, hj]; push_cast; ring
        have e10 : b0.x + b0.w = 25 * ((i0 + j0 : ℤ) : ℚ) := by
          rw [hi0, hj0]; push_cast; ring
        have h1 := hall b hbm hov
        have h2 : x1 < b.x + b.w := hov.1
        have h10 := hdir
        have h20 : x1 < b0.x + b0.w := hov0.1
        have hii : i + j = i0 + j0 := by
          have c1 : ((i + j : ℤ) : ℚ) < ((i0 + j0 : ℤ) : ℚ) + 1 := by
            rw [e1] at h1 h2; rw [e10] at h10 h20; linarith
          have c2 : ((i0 + j0 : ℤ) : ℚ) < ((i + j : ℤ) : ℚ) + 1 := by
            rw [e1] at h1 h2; rw [e10] at h10 h20; linarith
          have d1 : i + j < i0 + j0 + 1 := by exact_mod_cast c1
          have d2 : i0 + j0 < i + j + 1 := by exact_mod_cast c2
          omega
        rw [e1, e10, hii]
      have hres : horizResolve oldX (playerRect x1 y) blocks x1 = b0.x + b0.w := by
        apply foldl_absorb
        · intro b hbm
          by_cases hc : checkCollision (playerRect x1 y) b = true
          · have hov := (checkCollision_player_iff _ _ _).mp hc
            right
            unfold hstep
            rw [if_pos hc, if_neg (hg1f b hbm hov), if_pos (hall b hbm hov),
              hxeq b hbm hov]
          · left; unfold hstep; rw [if_neg hc]
        · intro b hbm
          by_cases hc : checkCollision (playerRect x1 y) b = true
          · have hov := (checkCollision_player_iff _ _ _).mp hc
            unfold hstep
            rw [if_pos hc, if_neg (hg1f b hbm hov), if_pos (hall b hbm hov),
              hxeq b hbm hov]
          · unfold hstep; rw [if_neg hc]
        · exact ⟨b0, hb0m, by
            unfold hstep
            rw [if_pos hb0c, if_neg (hg1f b0 hb0m hov0), if_pos hdir]⟩
      rw [hres]
      try dsimp only
      intro b hbm hov
      by_cases hbc : Overlaps x1 y b
      · have hbx := hxeq b hbm hbc
        have h1 := hov.1
        rw [hbx] at h1
        linarith
      · have hvert := hov.2.2
        have hOld : oldX ≥ b.x + b.w ∨ oldX + PlayerSize ≤ b.x := by
          by_contra hcon
          push_neg at hcon
          exact hpre b hbm ⟨hcon.1, hcon.2, hvert.1, hvert.2⟩
        have hNew : x1 ≥ b.x + b.w ∨ x1 + PlayerSize ≤ b.x := by
          by_contra hcon
          push_neg at hcon
          exact hbc ⟨hcon.1, hcon.2, hvert.1, hvert.2⟩
        have hcl : b0.x + b0.w ≤ oldX := hdir
        have hcu : x1 < b0.x + b0.w := hov0.1
        have hw : (50:ℚ) ≤ b.w := (hgrid b hbm).2.2.1
        rcases hOld with h | h
        · rcases hNew with h2 | h2
          · exact absurd hov.1 (by linarith)
          · linarith [hps]
        · exact absurd hov.2.1 (by linarith [hps])
  · push_neg at hex
    have hfix : horizResolve oldX (playerRect x1 y) blocks x1 = x1 := by
      apply foldl_fix
      intro b hb
      unfold hstep
      rw [if_neg (by simpa using hex b hb)]
    rw [hfix]
    intro b hb hov
    exact hex b hb ((checkCollision_player_iff _ _ _).mpr hov)

/-- Vertical safety: if the player overlaps no block before the vertical
move, the displacement is below one cell, and all blocks have height 50 on
the 50-grid, then the state produced by the vertical resolution loop
overlaps no block. -/
theorem vert_safe (blocks : List Block) (x oldY vy : ℚ)
    (hgrid : ∀ b ∈ blocks, (∃ k : ℤ, b.y = 50 * k) ∧ b.h = 50)
    (hpre : ∀ b ∈ blocks, ¬ Overlaps x oldY b)
    (hvy : |vy| < 50) :
    ∀ b ∈ blocks, ¬ Overlaps x
      (vertResolve oldY (playerRect x (oldY + vy)) blocks ⟨oldY + vy, vy, false⟩).y b := by
  have hps : PlayerSize = (50:ℚ) := rfl
  have hvu : vy < 50 := lt_of_le_of_lt (le_abs_self vy) hvy
  have hvl : -50 < vy := by
    have := neg_abs_le vy; linarith
  rcases lt_trichotomy vy 0 with hneg | hzero | hpos
  · -- rising: every colliding block is hit from below
    by_cases hex : ∃ b ∈ blocks, checkCollision (playerRect x (oldY + vy)) b = true
    · obtain ⟨b0, hb0m, hb0c⟩ := hex
      have hov0 := (checkCollision_player_iff _ _ _).mp hb0c
      have hdown : ∀ b ∈ blocks, Overlaps x (oldY + vy) b → oldY ≥ b.y + b.h := by
        intro b hbm hov
        by_contra hcon
        push_neg at hcon
        have hnv : ¬(oldY < b.y + b.h ∧ oldY + PlayerSize > b.y) := fun hv =>
          hpre b hbm ⟨hov.1, hov.2.1, hv.1, hv.2⟩
        push_neg at hnv
        have hle := hnv hcon
        have h22 := hov.2.2.2
        linarith [hps]
      have hyeq : ∀ b ∈ blocks, Overlaps x (oldY + vy) b → b.y + b.h = b0.y + b0.h := by
        intro b hbm hov
        obtain ⟨⟨k, hk⟩, hh⟩ := hgrid b hbm
        obtain ⟨⟨k0, hk0⟩, hh0⟩ := hgrid b0 hb0m
        have h1 := hdown b hbm hov
        have h2 : oldY + vy < b.y + b.h := hov.2.2.1
        have h10 := hdown b0 hb0m hov0
        have h20 : oldY + vy < b0.y + b0.h := hov0.2.2.1
        have hkk : k = k0 := by
          have c1 : (k : ℚ) < (k0 : ℚ) + 1 := by
            rw [hk, hh] at h1 h2; rw [hk0, hh0] at h10 h20; linarith
          have c2 : (k0 : ℚ) < (k : ℚ) + 1 := by
            rw [hk, hh] at h1 h2; rw [hk0, hh0] at h10 h20; linarith
          have d1 : k < k0 + 1 := by exact_mod_cast c1
          have d2 : k0 < k + 1 := by exact_mod_cast c2
          omega
        rw [hk, hh, hk0, hh0, hkk]
      have hres : vertResolve oldY (playerRect x (oldY + vy)) blocks
          ⟨oldY + vy, vy, false⟩ = ⟨b0.y + b0.h, 0, false⟩ := by
        apply foldl_absorb
        · intro b hbm
          by_cases hc : checkCollision (playerRect x (oldY + vy)) b = true
          · have hov := (checkCollision_player_iff _ _ _).mp hc
            right
            unfold vstep
            rw [if_pos hc, if_neg (by rintro ⟨h0, -⟩; exact absurd h0 (by norm_num; linarith)),
              if_pos ⟨hneg, hdown b hbm hov⟩]
            rw [show b.y + b.h = b0.y + b0.h from hyeq b hbm hov]
          · left; unfold vstep; rw [if_neg hc]
        · intro b hbm
          unfold vstep
          by_cases hc : checkCollision (playerRect x (oldY + vy)) b = true
          · rw [if_pos hc, if_neg (by rintro ⟨h0, -⟩; norm_num at h0),
              if_neg (by rintro ⟨h0, -⟩; norm_num at h0)]
          · rw [if_neg hc]
        · refine ⟨b0, hb0m, ?_⟩
          unfold vstep
          rw [if_pos hb0c, if_neg (by rintro ⟨h0, -⟩; exact absurd h0 (by norm_num; linarith)),
            if_pos ⟨hneg, hdown b0 hb0m hov0⟩]
      rw [hres]
      try dsimp only
      intro b hbm hov
      by_cases hbc : Overlaps x (oldY + vy) b
      · have hbe := hyeq b hbm hbc
        have h221 := hov.2.2.1
        rw [hbe] at h221
        linarith
      · obtain ⟨⟨k, hk⟩, hh⟩ := hgrid b hbm
        have hOld : oldY ≥ b.y + b.h ∨ oldY + PlayerSize ≤ b.y := by
          by_contra hcon
          push_neg at hcon
          exact hpre b hbm ⟨hov.1, hov.2.1, hcon.1, hcon.2⟩
        have hNew : oldY + vy ≥ b.y + b.h ∨ (oldY + vy) + PlayerSize ≤ b.y := by
          by_contra hcon
          push_neg at hcon
          exact hbc ⟨hov.1, hov.2.1, hcon.1, hcon.2⟩
        have hcl : b0.y + b0.h ≤ oldY := hdown b0 hb0m hov0
        have hcu : oldY + vy < b0.y + b0.h := hov0.2.2.1
        rcases hOld with h | h
        · rcases hNew with h2 | h2
          · exact absurd hov.2.2.1 (by linarith)
          · linarith [hps, hh]
        · exact absurd hov.2.2.2 (by linarith [hps])
    · push_neg at hex
      have hfix : vertResolve oldY (playerRect x (oldY + vy)) blocks
          ⟨oldY + vy, vy, false⟩ = ⟨oldY + vy, vy, false⟩ := by
        apply foldl_fix
        intro b hb
        unfold vstep
        rw [if_neg (by simpa using hex b hb)]
      rw [hfix]
      intro b hb hov
      exact hex b hb ((checkCollision_player_iff _ _ _).mpr hov)
  · -- zero displacement: no block can newly collide
    subst hzero
    have hnc : ∀ b ∈ blocks, ¬ checkCollision (playerRect x (oldY + 0)) b = true := by
      intro b hb hc
      have hov := (checkCollision_player_iff _ _ _).mp hc
      rw [add_zero] at hov
      exact hpre b hb hov
    have hfix : vertResolve oldY (playerRect x (oldY + 0)) blocks
        ⟨oldY + 0, 0, false⟩ = ⟨oldY + 0, 0, false⟩ := by
      apply foldl_fix
      intro b hb
      unfold vstep
      rw [if_neg (hnc b hb)]
    rw [hfix]
    intro b hb hov
    rw [show (⟨oldY + 0, 0, false⟩ : VState).y = oldY from add_zero oldY] at hov
    exact hpre b hb hov
  · -- falling: every colliding block is landed on from above
    by_cases hex : ∃ b ∈ blocks, checkCollision (playerRect x (oldY + vy)) b = true
    · obtain ⟨b0, hb0m, hb0c⟩ := hex
      have hov0 := (checkCollision_player_iff _ _ _).mp hb0c
      have hup : ∀ b ∈ blocks, Overlaps x (oldY + vy) b → oldY ≤ b.y - PlayerSize := by
        intro b hbm hov
        by_contra hcon
        push_neg at hcon
        have hnv : ¬(oldY < b.y + b.h ∧ oldY + PlayerSize > b.y) := fun hv =>
          hpre b hbm ⟨hov.1, hov.2.1, hv.1, hv.2⟩
        push_neg at hnv
        by_cases hcase : oldY < b.y + b.h
        · have := hnv hcase; linarith [hps]
        · push_neg at hcase
          exact absurd hov.2.2.1 (by linarith)
      have hyeq : ∀ b ∈ blocks, Overlaps x (oldY + vy) b → b.y = b0.y := by
        intro b hbm hov
        obtain ⟨⟨k, hk⟩, hh⟩ := hgrid b hbm
        obtain ⟨⟨k0, hk0⟩, hh0⟩ := hgrid b0 hb0m
        have h1 := hup b hbm hov
        have h2 : b.y - PlayerSize < oldY + vy := by linarith [hov.2.2.2, hps]
        have h10 := hup b0 hb0m hov0
        have h20 : b0.y - PlayerSize < oldY + vy := by linarith [hov0.2.2.2, hps]
        have hkk : k = k0 := by
          have c1 : (k : ℚ) < (k0 : ℚ) + 1 := by
            rw [hk, hps] at h1 h2; rw [hk0, hps] at h10 h20; linarith
          have c2 : (k0 : ℚ) < (k : ℚ) + 1 := by
            rw [hk, hps] at h1 h2; rw [hk0, hps] at h10 h20; linarith
          have d1 : k < k0 + 1 := by exact_mod_cast c1
          have d2 : k0 < k + 1 := by exact_mod_cast c2
          omega
        rw [hk, hk0, hkk]
      have hres : vertResolve oldY (playerRect x (oldY + vy)) blocks
          ⟨oldY + vy, vy, false⟩ = ⟨b0.y - PlayerSize, 0, true⟩ := by
        apply foldl_absorb
        · intro b hbm
          by_cases hc : checkCollision (playerRect x (oldY + vy)) b = true
          · have hov := (checkCollision_player_iff _ _ _).mp hc
            right
            unfold vstep
            rw [if_pos hc, if_pos ⟨hpos, hup b hbm hov⟩]
            rw [show b.y = b0.y from hyeq b hbm hov]
          · left; unfold vstep; rw [if_neg hc]
        · intro b hbm
          unfold vstep
          by_cases hc : checkCollision (playerRect x (oldY + vy)) b = true
          · rw [if_pos hc, if_neg (by rintro ⟨h0, -⟩; norm_num at h0),
              if_neg (by rintro ⟨h0, -⟩; norm_num at h0)]
          · rw [if_neg hc]
        · refine ⟨b0, hb0m, ?_⟩
          unfold vstep
          rw [if_pos hb0c, if_pos ⟨hpos, hup b0 hb0m hov0⟩]
      rw [hres]
      try dsimp only
      intro b hbm hov
      by_cases hbc : Overlaps x (oldY + vy) b
      · have hbe := hyeq b hbm hbc
        have h222 := hov.2.2.2
        rw [hbe] at h222
        linarith [hps]
      · obtain ⟨⟨k, hk⟩, hh⟩ := hgrid b hbm
        have hOld : oldY ≥ b.y + b.h ∨ oldY + PlayerSize ≤ b.y := by
          by_contra hcon
          push_neg at hcon
          exact hpre b hbm ⟨hov.1, hov.2.1, hcon.1, hcon.2⟩
        have hNew : oldY + vy ≥ b.y + b.h ∨ (oldY + vy) + PlayerSize ≤ b.y := by
          by_contra hcon
          push_neg at hcon
          exact hbc ⟨hov.1, hov.2.1, hcon.1, hcon.2⟩
        have hcl : oldY ≤ b0.y - PlayerSize := hup b0 hb0m hov0
        have hcu : b0.y - PlayerSize < oldY + vy := by linarith [hov0.2.2.2, hps]
        rcases hOld with h | h
        · exact absurd hov.2.2.1 (by linarith)
        · rcases hNew with h2 | h2
          · linarith [hps, hh]
          · exact absurd hov.2.2.2 (by linarith [hps])
    · push_neg at hex
      have hfix : vertResolve oldY (playerRect x (oldY + vy)) blocks
          ⟨oldY + vy, vy, false⟩ = ⟨oldY + vy, vy, false⟩ := by
        apply foldl_fix
        intro b hb
        unfold vstep
        rw [if_neg (by simpa using hex b hb)]
      rw [hfix]
      intro b hb hov
      exact hex b hb ((checkCollision_player_iff _ _ _).mpr hov)

/-- C1 (amended): one physics step preserves the no-overlap property.  If
the player overlaps no block at the start of the step, the blocks satisfy
the program's geometry (OnGrid, true of every block the program creates —
see `block_dims`), the world bounds are uninitialised (they always are: the
program never assigns them) and the vertical velocity is at least the jump
impulse −12 (the program never drives it lower), then after the step —
any input — the player overlaps no block.  Unconditionally (as C1 states
it) the property is false: see `updatePhysics_overlap_remains`. -/
theorem updatePhysics_no_overlap (g : Game) (inp : Input)
    (hgrid : ∀ b ∈ g.blocks, OnGrid b)
    (hmin : g.worldMinX = 0)
    (hvy : -12 ≤ g.playerVelocityY)
    (hpre : ∀ b ∈ g.blocks, ¬ Overlaps g.playerX g.playerY b) :
    ∀ b ∈ (updatePhysics g inp).blocks,
      ¬ Overlaps (updatePhysics g inp).playerX (updatePhysics g inp).playerY b := by
  have hdx : |moveX g inp - g.playerX| ≤ 4 := by
    rcases inp with ⟨l, r, j⟩
    cases l <;> cases r
    · have e : moveX g ⟨false, false, j⟩ - g.playerX = 0 := by
        simp [moveX]
      rw [e]; norm_num
    · have e : moveX g ⟨false, true, j⟩ - g.playerX = 4 := by
        simp [moveX, PlayerSpeed]
      rw [e]; norm_num
    · have e : moveX g ⟨true, false, j⟩ - g.playerX = -4 := by
        simp [moveX, PlayerSpeed]
      rw [e]; norm_num
    · have e : moveX g ⟨true, true, j⟩ - g.playerX = 0 := by
        simp [moveX, PlayerSpeed]
      rw [e]; norm_num
  have hH := horiz_safe g.blocks g.playerX (moveX g inp) g.playerY hgrid hpre hdx
  have hbx : resolvedX g inp = horizResolve g.playerX
      (playerRect (moveX g inp) g.playerY) g.blocks (moveX g inp) := by
    unfold resolvedX boundX
    exact if_neg (by simp [hmin])
  have hH' : ∀ b ∈ g.blocks, ¬ Overlaps (resolvedX g inp) g.playerY b := by
    intro b hb
    rw [hbx]
    exact hH b hb
  have hG : Gravity = (1/2 : ℚ) := rfl
  have hPM : PlayerMaxFall = (10 : ℚ) := rfl
  have hfv : |stepVy g inp| < 50 := by
    simp only [stepVy]
    by_cases hj : inp.jump = true ∧ g.playerOnGround = true
    · rw [if_pos hj]
      by_cases hcl : -JumpPower + Gravity > PlayerMaxFall
      · rw [if_pos hcl]; norm_num [PlayerMaxFall]
      · rw [if_neg hcl, abs_lt]
        constructor <;> norm_num [JumpPower, Gravity]
    · rw [if_neg hj]
      by_cases hcl : g.playerVelocityY + Gravity > PlayerMaxFall
      · rw [if_pos hcl]; norm_num [PlayerMaxFall]
      · rw [if_neg hcl]
        push_neg at hcl
        rw [abs_lt]
        exact ⟨by linarith, by linarith⟩
  have hgrid2 : ∀ b ∈ g.blocks, (∃ k : ℤ, b.y = 50 * k) ∧ b.h = 50 :=
    fun b hb => ⟨(hgrid b hb).2.2.2.1, (hgrid b hb).2.2.2.2⟩
  have hV := vert_safe g.blocks (resolvedX g inp) g.playerY (stepVy g inp)
    hgrid2 hH' hfv
  intro b hb
  have hbb : (updatePhysics g inp).blocks = g.blocks := rfl
  rw [hbb] at hb
  have hpx : (updatePhysics g inp).playerX = resolvedX g inp := rfl
  have hpy : (updatePhysics g inp).playerY = (stepVert g inp).y := rfl
  rw [hpx, hpy]
  simp only [stepVert]
  exact hV b hb

/-- Witness for `updatePhysics_no_overlap`: a player ten units above the
ground block, taking one no-input step. -/
theorem updatePhysics_no_overlap_witness :
    (∀ b ∈ fallGame.blocks, OnGrid b) ∧
    fallGame.worldMinX = 0 ∧ -12 ≤ fallGame.playerVelocityY ∧
    (∀ b ∈ fallGame.blocks, ¬ Overlaps fallGame.playerX fallGame.playerY b) ∧
    (∀ b ∈ (updatePhysics fallGame noInput).blocks,
      ¬ Overlaps (updatePhysics fallGame noInput).playerX
        (updatePhysics fallGame noInput).playerY b) := by
  have hgrid : ∀ b ∈ fallGame.blocks, OnGrid b := by
    intro b hb
    simp only [fallGame, List.mem_singleton] at hb
    subst hb
    exact ⟨⟨0, by norm_num [probeBlock]⟩, ⟨2, by norm_num [probeBlock]⟩,
      by norm_num [probeBlock], ⟨0, by norm_num [probeBlock]⟩, by norm_num [probeBlock]⟩
  have hpre : ∀ b ∈ fallGame.blocks, ¬ Overlaps fallGame.playerX fallGame.playerY b := by
    intro b hb hov
    simp only [fallGame, List.mem_singleton] at hb
    subst hb
    have h4 := hov.2.2.2
    norm_num [fallGame, probeBlock, PlayerSize] at h4
  exact ⟨hgrid, rfl, by norm_num [fallGame], hpre,
    updatePhysics_no_overlap fallGame noInput hgrid rfl (by norm_num [fallGame]) hpre⟩

/-- Counterexample to C1 as stated: from a reachable state in which the
player's square coincides with a block (creative placement can fill the
player's own cell), one full physics step leaves the player still
overlapping that block — neither resolution branch fires because the
pre-move position was not beyond either face. -/
theorem updatePhysics_overlap_remains :
    probeBlock ∈ stuckGame.blocks ∧
    (updatePhysics stuckGame noInput).blocks = stuckGame.blocks ∧
    Overlaps (updatePhysics stuckGame noInput).playerX
      (updatePhysics stuckGame noInput).playerY probeBlock := by
  refine ⟨by simp [stuckGame], rfl, ?_⟩
  have hX : (updatePhysics stuckGame noInput).playerX = 0 := by
    norm_num [updatePhysics, resolvedX, moveX, boundX, stuckGame, noInput,
      horizResolve, hstep, checkCollision, playerRect, probeBlock,
      PlayerSize, PlayerSpeed]
  have hY : (updatePhysics stuckGame noInput).playerY = 1/2 := by
    norm_num [updatePhysics, stepVert, resolvedX, moveX, boundX, stepVy,
      stuckGame, noInput, horizResolve, vertResolve, hstep, vstep,
      checkCollision, playerRect, probeBlock, PlayerSize, PlayerSpeed,
      Gravity, JumpPower, PlayerMaxFall]
  rw [hX, hY]
  unfold Overlaps probeBlock PlayerSize
  norm_num

end TwoD
